import Mathlib

/-!
# Verification of the writing-assistant activation core

A shallow embedding of the activation pipeline of the writing-assistant
desktop overlay: selection capture with clipboard backup/restore
(`src/core/services/input_source.py`), the debounced window toggle
(`src/core/managers/window.py`), hotkey capture and formatting
(`src/core/services/hotkey_capture.py`), the event bus
(`src/core/event_bus.py`), and the prompt-bar attachment reconciliation
(`src/ui/components/input/prompt_bar.py`).

Python strings are Lean `String`s; Python `None` is `Option.none`; machine
floats (monotonic timestamps, debounce intervals) are modelled as exact
integer clock ticks — only ordering and subtraction of times are ever
used, so any fixed tick resolution represents them faithfully; OS side
effects (clipboard, keyboard, window) are threaded explicitly as state or
captured as action traces.
-/

namespace WritingAssistant

/-! ## Python string helpers -/

/-- Python `str.strip()`: remove leading and trailing whitespace.
(List-based so the kernel can evaluate it.) -/
def pyStrip (s : String) : String :=
  String.mk ((s.data.dropWhile Char.isWhitespace).reverse.dropWhile Char.isWhitespace).reverse

/-- Python `str.lower()`. -/
def pyLower (s : String) : String := String.mk (s.data.map Char.toLower)

/-- Python `str.upper()`. -/
def pyUpper (s : String) : String := String.mk (s.data.map Char.toUpper)

/-- Python `str.startswith(pre)`. -/
def pyStartsWith (s pre : String) : Bool := pre.data.isPrefixOf s.data

/-- Python `s[n:]`. -/
def pyDrop (s : String) (n : Nat) : String := String.mk (s.data.drop n)

/-- `sep.join(parts)`. -/
def pyJoin (sep : String) : List String → String
  | [] => ""
  | [x] => x
  | x :: xs => x ++ sep ++ pyJoin sep xs

/-- If `sep` is a prefix of `cs`, return the remainder after it. -/
def dropPrefixQ : List Char → List Char → Option (List Char)
  | [], cs => some cs
  | _ :: _, [] => none
  | s :: ss, c :: cs => if c = s then dropPrefixQ ss cs else none

/-- Fuel-driven worker for `pySplit`; the fuel is at least the length of the
remaining text, so it never runs out for a non-empty separator. -/
def pySplitAux (sep : List Char) : Nat → List Char → List Char → List (List Char)
  | _, [], acc => [acc.reverse]
  | 0, cs, acc => [acc.reverse ++ cs]
  | fuel + 1, c :: cs, acc =>
    match dropPrefixQ sep (c :: cs) with
    | some rest => acc.reverse :: pySplitAux sep fuel rest []
    | none => pySplitAux sep fuel cs (c :: acc)

/-- Python `s.split(sep)` for a non-empty separator (e.g. `"a+b".split("+")
= ["a", "b"]`, `"".split("+") = [""]`). -/
def pySplit (s sep : String) : List String :=
  (pySplitAux sep.data s.data.length s.data []).map String.mk

/-- Python truthiness of a string: non-empty. -/
def pyTruthy (s : String) : Bool := s ≠ ""

/-- Python truthiness of an optional string (`None` and `""` are falsy). -/
def pyTruthyOpt : Option String → Bool
  | none => false
  | some s => pyTruthy s

/-- Python `str.capitalize()`: first character uppercased, the rest lowercased. -/
def pyCapitalize (s : String) : String :=
  match s.data with
  | [] => ""
  | c :: cs => String.mk (c.toUpper :: cs.map Char.toLower)

/-! ## Clipboard / selection capture service (`input_source.py`)

`InputSourceService.get_selection_text` backs up the clipboard, then up to
`max_retries` times clears the clipboard, simulates a Ctrl+C chord, waits,
and re-reads the clipboard; a non-blank read that is not an existing file
path is accepted as the selection.  Afterwards the backup is restored
(`pyperclip.copy(backup)`) when it was non-empty, and the clipboard is
cleared otherwise.

The environment abstracts the outside world: `copyResult i` is the
clipboard content present after attempt `i`'s simulated Ctrl+C and wait
(`""` meaning the foreground application wrote nothing), and `isFile` is
the filesystem oracle behind `_is_file_path` (`Path(text).exists() and
Path(text).is_file()`).  Every OS call in the Python method is wrapped in
`try/except`, so no exception escapes the loop; the embedding is
accordingly total. -/

structure SelectionEnv where
  copyResult : Nat → String
  isFile : String → Bool

/-- The retry loop of `get_selection_text` (lines 169-203): one iteration
clears the clipboard, simulates Ctrl+C (after which the clipboard holds
`E.copyResult attempt`), and inspects the result.  Returns the
`selected_text` outcome together with the clipboard content the loop
leaves behind (before restoration). -/
def selectionLoop (E : SelectionEnv) : Nat → Nat → String → Option String × String
  | 0, _, clip => (none, clip)
  | fuel + 1, attempt, _clip =>
    -- clear_clipboard(): clipboard := ""
    -- _simulate_ctrl_c(); sleep: clipboard := E.copyResult attempt
    let current := E.copyResult attempt
    if pyTruthy current ∧ pyTruthy (pyStrip current) then
      if E.isFile (pyStrip current) then
        (none, current)          -- file path: treated as no selection, break
      else
        (some (pyStrip current), current)  -- selection accepted, break
    else
      selectionLoop E fuel (attempt + 1) current

/-- `InputSourceService.get_selection_text` (lines 126-212), with the
Windows platform check passed.  Returns the selected text and the final
clipboard content.  `clipboard0` is the clipboard content at entry (what
`backup_clipboard` reads). -/
def getSelectionText (E : SelectionEnv) (maxRetries : Nat) (clipboard0 : String) :
    Option String × String :=
  let clipboardBackup := clipboard0
  let (selectedText, _clipAfterLoop) := selectionLoop E maxRetries 0 clipboard0
  -- if clipboard_backup: restore_clipboard(clipboard_backup) else: clear_clipboard()
  let finalClipboard := if pyTruthy clipboardBackup then clipboardBackup else ""
  (selectedText, finalClipboard)

/-! ## Debounced trigger / window toggle (`managers/window.py`)

`WindowManager.toggle_window` tries a non-blocking acquire of
`trigger_lock`; if the lock is held by another in-flight invocation the
fire is dropped.  Otherwise it reads `time.monotonic()`, rejects the fire
when less than `MIN_TRIGGER_INTERVAL` has elapsed since the last accepted
trigger, and otherwise records the trigger time and toggles visibility.
The lock is released on every exit path (`finally`), so the `locked` field
below stands for "some other invocation is currently mid-processing": a
completed call leaves it as it found it. -/

structure WMConfig where
  minTriggerInterval : ℤ
deriving DecidableEq

structure WMState where
  lastTriggerTime : ℤ
  windowVisible : Bool
  locked : Bool
  hasPage : Bool
deriving DecidableEq

inductive ToggleOutcome
  | droppedLocked
  | droppedDebounce
  | toggled
deriving DecidableEq

/-- `WindowManager.show_window` state effect (lines 75-103): sets
`window_visible = True` when a Flet page is present, otherwise logs and
leaves the state unchanged. -/
def showWindowState (st : WMState) : WMState :=
  if st.hasPage then { st with windowVisible := true } else st

/-- `WindowManager.hide_window` state effect (lines 105-129). -/
def hideWindowState (st : WMState) : WMState :=
  if st.hasPage then { st with windowVisible := false } else st

/-- `WindowManager.toggle_window` (lines 40-73). -/
def toggleWindow (cfg : WMConfig) (st : WMState) (now : ℤ) : WMState × ToggleOutcome :=
  if st.locked then
    (st, .droppedLocked)
  else if now - st.lastTriggerTime < cfg.minTriggerInterval then
    (st, .droppedDebounce)
  else
    let st1 := { st with lastTriggerTime := now }
    let st2 := if st1.windowVisible then hideWindowState st1 else showWindowState st1
    (st2, .toggled)

/-- A sequence of sequential `toggle_window` invocations at the given
monotonic timestamps; returns the final state and the number of calls
that performed a show/hide toggle. -/
def runToggles (cfg : WMConfig) : WMState → List ℤ → WMState × Nat
  | st, [] => (st, 0)
  | st, t :: ts =>
    let r := toggleWindow cfg st t
    let rest := runToggles cfg r.1 ts
    (rest.1, (if r.2 = .toggled then 1 else 0) + rest.2)

/-! ## Hotkey capture and canonical formats (`hotkey_capture.py`) -/

/-- `MODIFIER_KEYS`: modifier key names, including locale variants. -/
def MODIFIER_KEYS : List String :=
  ["ctrl", "shift", "alt", "windows",
   "left ctrl", "right ctrl", "left shift", "right shift",
   "left alt", "right alt", "left windows", "right windows",
   "maj", "left maj", "right maj",
   "ctrl gauche", "ctrl droite", "alt gr"]

/-- `KEY_NAME_MAP`: raw key name to display name. -/
def KEY_NAME_MAP : List (String × String) :=
  [("decimal", "Decimal"), ("add", "NumAdd"), ("subtract", "NumSubtract"),
   ("multiply", "NumMultiply"), ("divide", "NumDivide"),
   ("numpad 0", "Num0"), ("numpad 1", "Num1"), ("numpad 2", "Num2"),
   ("numpad 3", "Num3"), ("numpad 4", "Num4"), ("numpad 5", "Num5"),
   ("numpad 6", "Num6"), ("numpad 7", "Num7"), ("numpad 8", "Num8"),
   ("numpad 9", "Num9"), ("num lock", "NumLock"),
   ("page up", "PageUp"), ("page down", "PageDown"),
   ("caps lock", "CapsLock"), ("scroll lock", "ScrollLock"),
   ("print screen", "PrintScreen"),
   ("left", "Left"), ("right", "Right"), ("up", "Up"), ("down", "Down"),
   ("home", "Home"), ("end", "End"), ("insert", "Insert"),
   ("delete", "Delete"), ("backspace", "Backspace"), ("tab", "Tab"),
   ("enter", "Enter"), ("escape", "Escape"), ("space", "Space")]

/-- `SCANCODE_TO_KEY_NAME`: scancode to base key name for ambiguous keys. -/
def SCANCODE_TO_KEY_NAME : List (Nat × String) :=
  [(82, "Num0"), (79, "Num1"), (80, "Num2"), (81, "Num3"), (75, "Num4"),
   (76, "Num5"), (77, "Num6"), (71, "Num7"), (72, "Num8"), (73, "Num9"),
   (83, "Decimal"), (53, "NumDivide"), (55, "NumMultiply"),
   (74, "NumSubtract"), (78, "NumAdd"),
   (59, "F1"), (60, "F2"), (61, "F3"), (62, "F4"), (63, "F5"), (64, "F6"),
   (65, "F7"), (66, "F8"), (67, "F9"), (68, "F10"), (87, "F11"), (88, "F12")]

/-- Dictionary lookup in `KEY_NAME_MAP`. -/
def lookupKeyName (k : String) : Option String :=
  (KEY_NAME_MAP.find? (fun p => p.1 == k)).map (·.2)

/-- Dictionary lookup in `SCANCODE_TO_KEY_NAME`. -/
def lookupScancode (sc : Nat) : Option String :=
  (SCANCODE_TO_KEY_NAME.find? (fun p => p.1 == sc)).map (·.2)

/-- `HotkeyCapture._is_modifier`. -/
def isModifier (keyName : String) : Bool := MODIFIER_KEYS.contains keyName

/-- `HotkeyCapture._normalize_modifier`: strip a `left `/`right ` prefix,
then map French names to standard names. -/
def normalizeModifier (keyName : String) : String :=
  let keyName :=
    if pyStartsWith keyName "left " then pyDrop keyName 5
    else if pyStartsWith keyName "right " then pyDrop keyName 6
    else keyName
  let frenchToStandard : List (String × String) :=
    [("maj", "shift"), ("alt gr", "alt"), ("ctrl gauche", "ctrl"), ("ctrl droite", "ctrl")]
  match frenchToStandard.find? (fun p => p.1 == keyName) with
  | some p => p.2
  | none => keyName

/-- `HotkeyCapture._normalize_key_name`. -/
def normalizeKeyName (keyName : String) : String :=
  match lookupKeyName keyName with
  | some d => d
  | none => if keyName.data.length = 1 then pyUpper keyName else pyCapitalize keyName

/-- State of a `HotkeyCapture` session: the raw held keys, the normalized
held modifiers (Python sets, modelled as duplicate-free lists), and the
single main-key candidate. -/
structure CaptureState where
  currentKeys : List String
  modifiers : List String
  mainKey : Option String
deriving DecidableEq

/-- Python `set.add`: insert if absent. -/
def insertKey (k : String) (s : List String) : List String :=
  if s.contains k then s else s ++ [k]

/-- Fresh state after `start_capture` (cleared keys, modifiers, main key). -/
def initCaptureState : CaptureState := ⟨[], [], none⟩

inductive KeyEventType
  | down
  | up
deriving DecidableEq

/-- A `keyboard.KeyboardEvent` as seen by `_on_key_event`. -/
structure KeyEvent where
  name : String
  scanCode : Nat
  etype : KeyEventType

/-- `HotkeyCapture._on_key_event` (lines 178-220), with `_is_capturing`
true.  On key-down a modifier is normalized and added to the held set,
otherwise the key becomes the main candidate (scancode lookup first, name
normalization as fallback); on key-up the key leaves the held sets. -/
def onKeyEvent (st : CaptureState) (e : KeyEvent) : CaptureState :=
  let keyName := pyLower e.name
  match e.etype with
  | .down =>
    let st1 :=
      if isModifier keyName then
        { st with modifiers := insertKey (normalizeModifier keyName) st.modifiers }
      else
        match lookupScancode e.scanCode with
        | some k => { st with mainKey := some k }
        | none => { st with mainKey := some (normalizeKeyName keyName) }
    { st1 with currentKeys := insertKey keyName st1.currentKeys }
  | .up =>
    let st1 := { st with currentKeys := st.currentKeys.filter (fun k => k ≠ keyName) }
    if isModifier keyName then
      { st1 with modifiers := st1.modifiers.filter (fun m => m ≠ normalizeModifier keyName) }
    else st1

/-- A capture session: `start_capture` (fresh state) followed by a stream
of key events. -/
def runCapture (events : List KeyEvent) : CaptureState :=
  events.foldl onKeyEvent initCaptureState

/-- `HotkeyCapture.get_current_hotkey` (lines 255-281): storage format,
modifiers in fixed ctrl, alt, shift, win order, then the lowercased main
key, joined by `+`. -/
def getCurrentHotkey (st : CaptureState) : String :=
  if st.modifiers = [] ∧ st.mainKey = none then ""
  else
    let parts : List String :=
      (if st.modifiers.contains "ctrl" then ["ctrl"] else []) ++
      (if st.modifiers.contains "alt" then ["alt"] else []) ++
      (if st.modifiers.contains "shift" then ["shift"] else []) ++
      (if st.modifiers.contains "windows" then ["win"] else []) ++
      (match st.mainKey with
       | some k => [pyLower k]
       | none => [])
    pyJoin "+" parts

/-- `HotkeyCapture.stop_capture` (lines 155-176): uninstalls the hook and
returns `get_current_hotkey()` of the state at that moment. -/
def stopCapture (st : CaptureState) : String := getCurrentHotkey st

/-- `format_hotkey_for_display` (lines 312-339). -/
def format_hotkey_for_display (hotkey : Option String) : String :=
  match hotkey with
  | none => "None"
  | some h =>
    if h = "" then "None"
    else
      let parts := pySplit h "+"
      let displayParts := parts.map (fun part =>
        let p := pyLower (pyStrip part)
        if ["ctrl", "alt", "shift", "win", "windows"].contains p then pyCapitalize p
        else
          match lookupKeyName p with
          | some d => d
          | none => if p.data.length = 1 then pyUpper p else pyCapitalize p)
      pyJoin " + " displayParts

/-- `format_hotkey_for_storage` (lines 343-358): splits the display string
on `" + "`, lowercases the parts, and joins them with the separator the
source actually uses, `"+ "`. -/
def format_hotkey_for_storage (displayHotkey : String) : String :=
  if displayHotkey = "" ∨ displayHotkey = "None" then ""
  else pyJoin "+ " ((pySplit displayHotkey " + ").map (fun p => pyLower (pyStrip p)))

/-- A non-empty storage-format combination made of modifiers only. -/
def isModifierPart (p : String) : Bool :=
  p == "ctrl" || p == "alt" || p == "shift" || p == "win"

def isModifiersOnly (s : String) : Bool :=
  (s != "") && (pySplit s "+").all isModifierPart

/-! ## Event bus (`event_bus.py`)

A listener callback takes the optional event data and either returns or
raises; `EventBus.emit` looks the event type up in the listener table,
then calls every subscribed callback in order inside a per-listener
`try/except`, so a raising callback is logged and delivery continues.
The embedding returns the per-listener delivery record (`true` for a
normal return, `false` for a caught-and-logged exception); its total type
is the "emit never raises" guarantee. -/

/-- A subscriber callback: receives the optional payload, returns normally
or raises (modelled as `Except` with the exception message). -/
def Callback (δ : Type) : Type := Option δ → Except String Unit

/-- The outcome of calling one callback under the per-listener
`try/except`: `true` when it returned, `false` when its exception was
caught and logged. -/
def runCallback {δ : Type} (cb : Callback δ) (data : Option δ) : Bool :=
  match cb data with
  | .ok _ => true
  | .error _ => false

/-- The listener table `_listeners` (event type → subscribed callbacks). -/
def subscribersOf {δ : Type} (listeners : List (String × List (Callback δ)))
    (eventType : String) : List (Callback δ) :=
  match listeners.find? (fun p => p.1 == eventType) with
  | some p => p.2
  | none => []

/-- `EventBus.emit` (lines 47-61): the delivery record of one emission. -/
def emitBus {δ : Type} (listeners : List (String × List (Callback δ)))
    (eventType : String) (data : Option δ) : List Bool :=
  (subscribersOf listeners eventType).map (fun cb => runCallback cb data)

/-! ## Prompt-bar attachment reconciliation (`prompt_bar.py`)

`PromptBar._refresh_sources` runs on the pre-show event: it detects a
fresh `InputState` and reconciles the attachment list under the
selection-over-clipboard priority rule, then `_update_attachment_zone`
reorders source attachments first.  Attachment `content` is text or an
opaque clipboard image; `name`s are the untranslated UI strings. -/

inductive AttachContent
  | text (s : String)
  | image
deriving DecidableEq

/-- `Attachment` (`attachment_zone.py`). -/
structure Attachment where
  id : String
  type : String
  content : AttachContent
  name : String
  source : Option String := none
  size : Option String := none
deriving DecidableEq

/-- `InputState` (`input_source.py`): `clipboard_image` records presence
of a genuine bitmap (`clipboard_image is not None`). -/
structure InputState where
  clipboard_text : Option String := none
  clipboard_image : Bool := false
  selection_text : Option String := none
deriving DecidableEq

/-- `InputState.has_selection` (`bool(self.selection_text)`). -/
def InputState.has_selection (st : InputState) : Bool :=
  pyTruthyOpt st.selection_text

/-- `InputState.has_clipboard_content`
(`bool(self.clipboard_text or self.clipboard_image)`). -/
def InputState.has_clipboard_content (st : InputState) : Bool :=
  pyTruthyOpt st.clipboard_text || st.clipboard_image

/-- Reserved attachment ids (`AttachmentID` enum). -/
def ID_SELECTION_TEXT : String := "selection_text"

def ID_CLIPBOARD_TEXT : String := "clipboard_text"

def ID_CLIPBOARD_IMAGE : String := "clipboard_image"

/-- `PromptBar._remove_selection_attachment`. -/
def removeSelectionAttachment (attachments : List Attachment) : List Attachment :=
  attachments.filter (fun a => !(a.id == ID_SELECTION_TEXT))

/-- `PromptBar._remove_clipboard_attachments`. -/
def removeClipboardAttachments (attachments : List Attachment) : List Attachment :=
  attachments.filter (fun a => !(a.id == ID_CLIPBOARD_TEXT || a.id == ID_CLIPBOARD_IMAGE))

/-- `PromptBar._add_selection_attachment` (lines 234-249). -/
def addSelectionAttachment (st : InputState) (attachments : List Attachment) :
    List Attachment :=
  match st.selection_text with
  | none => attachments
  | some s =>
    if s = "" then attachments
    else
      removeSelectionAttachment attachments ++
        [{ id := ID_SELECTION_TEXT, type := "text", content := .text s,
           name := "Selection", source := some "selection" }]

/-- `PromptBar._add_clipboard_attachment` (lines 255-283). -/
def addClipboardAttachment (st : InputState) (attachments : List Attachment) :
    List Attachment :=
  let l1 := removeClipboardAttachments attachments
  let l2 :=
    match st.clipboard_text with
    | none => l1
    | some s =>
      if s = "" then l1
      else l1 ++ [{ id := ID_CLIPBOARD_TEXT, type := "text", content := .text s,
                    name := "Clipboard", source := some "clipboard" }]
  if st.clipboard_image then
    l2 ++ [{ id := ID_CLIPBOARD_IMAGE, type := "image", content := .image,
             name := "Clipboard Image", source := some "clipboard" }]
  else l2

/-- Whether an attachment is source-based (`a.source in ("selection", "clipboard")`). -/
def isSourceAttachment (a : Attachment) : Bool :=
  a.source == some "selection" || a.source == some "clipboard"

/-- `PromptBar._reorder_attachments`: source attachments first, others after,
each group keeping its relative order. -/
def reorderAttachments (attachments : List Attachment) : List Attachment :=
  attachments.filter isSourceAttachment ++
    attachments.filter (fun a => !(isSourceAttachment a))

/-- The attachment-list effect of `PromptBar._refresh_sources` (lines
159-197) followed by `_update_attachment_zone`'s reorder: given the fresh
`InputState` and the prior attachment list, the reconciled list. -/
def refreshSources (st : InputState) (attachments : List Attachment) : List Attachment :=
  let l :=
    if st.has_selection then addSelectionAttachment st attachments
    else if st.has_clipboard_content then addClipboardAttachment st attachments
    else attachments
  reorderAttachments l

/-- Number of attachments carrying the given source. -/
def countSource (src : String) (attachments : List Attachment) : Nat :=
  (attachments.filter (fun a => a.source == some src)).length

/-! ## Window show/hide ordering (`managers/window.py`, `managers/systray.py`)

`show_window` runs the pre-show hook (`on_show`, the window pre-show
notification whose subscribers capture the selection) to completion
before touching the window, then sets it visible, brings it to front and
updates the page; `hide_window` sets it invisible first and runs the
hidden hook (`on_hide`) afterwards.  The only `WINDOW_SHOWN` emission in
the repository is the systray settings handler, which emits it after
setting the window visible.  Each hook/event run is one trace action
standing for a subscriber callback running to completion. -/

inductive WMAction
  | preShowRun (i : Nat)
  | setVisible (b : Bool)
  | toFront
  | pageUpdate
  | setVisibleFlag (b : Bool)
  | shownRun (i : Nat)
  | hiddenRun (i : Nat)
deriving DecidableEq

/-- The subscriber wiring of one window: whether a Flet page is attached
and how many subscribers each notification has. -/
structure WindowWiring where
  hasPage : Bool
  preShowSubs : Nat
  shownSubs : Nat
  hiddenSubs : Nat

/-- Action trace of `WindowManager.show_window` (lines 75-103). -/
def showWindowTrace (w : WindowWiring) : List WMAction :=
  if w.hasPage then
    (List.range w.preShowSubs).map WMAction.preShowRun ++
      [.setVisible true, .toFront, .pageUpdate, .setVisibleFlag true]
  else []

/-- Action trace of `WindowManager.hide_window` (lines 105-129). -/
def hideWindowTrace (w : WindowWiring) : List WMAction :=
  if w.hasPage then
    [WMAction.setVisible false, .pageUpdate, .setVisibleFlag false] ++
      (List.range w.hiddenSubs).map WMAction.hiddenRun
  else []

/-- Action trace of the window-showing branch of
`SystrayManager._on_settings_click` (`systray.py` lines 178-181), the one
place that emits `WINDOW_SHOWN`. -/
def systrayShowTrace (w : WindowWiring) : List WMAction :=
  if w.hasPage then
    [WMAction.setVisible true] ++ (List.range w.shownSubs).map WMAction.shownRun
  else []

/-- Discriminators for trace actions. -/
def WMAction.isPreShowRun : WMAction → Bool
  | .preShowRun _ => true
  | _ => false

def WMAction.isShownRun : WMAction → Bool
  | .shownRun _ => true
  | _ => false

def WMAction.isHiddenRun : WMAction → Bool
  | .hiddenRun _ => true
  | _ => false

/-! ## Theorems -/

/-! ### Clipboard restoration and file-path rejection -/

/-- C1: for every call to `get_selection_text` and every outcome of the
retry loop — selection accepted, file path rejected, or retries exhausted
(every OS call inside the loop is exception-wrapped, so no exception can
escape mid-loop) — the clipboard content after the call equals the content
before it: the non-empty backup taken at entry is restored, and an empty
backup leads to an explicit clear, which re-establishes the same empty
content. -/
theorem getSelectionText_restores_clipboard (E : SelectionEnv) (maxRetries : Nat)
    (clipboard0 : String) :
    (getSelectionText E maxRetries clipboard0).2 = clipboard0 := by
  unfold getSelectionText
  by_cases h : clipboard0 = ""
  · subst h; simp [pyTruthy]
  · simp [pyTruthy, h]

/-- Every attempt of the retry loop that reads a non-blank clipboard whose
stripped content the filesystem oracle recognizes as an existing file ends
the loop with `selected_text = None`. -/
theorem selectionLoop_all_file_paths_none (E : SelectionEnv)
    (h : ∀ i, pyTruthy (pyStrip (E.copyResult i)) = true →
      E.isFile (pyStrip (E.copyResult i)) = true) :
    ∀ (fuel attempt : Nat) (clip : String),
      (selectionLoop E fuel attempt clip).1 = none := by
  intro fuel
  induction fuel with
  | zero => intro attempt clip; rfl
  | succ n ih =>
    intro attempt clip
    unfold selectionLoop
    by_cases hc : pyTruthy (E.copyResult attempt) ∧ pyTruthy (pyStrip (E.copyResult attempt))
    · simp only [if_pos hc, if_pos (h attempt hc.2)]
    · simp only [if_neg hc]
      exact ih (attempt + 1) (E.copyResult attempt)

/-- C8: if the clipboard content produced by the simulated copy is (on
every attempt that produces anything) a valid path to an existing file,
`get_selection_text` returns `None` — the path string is rejected as "no
text selection". -/
theorem getSelectionText_rejects_file_paths (E : SelectionEnv) (maxRetries : Nat)
    (clipboard0 : String)
    (h : ∀ i, pyTruthy (pyStrip (E.copyResult i)) = true →
      E.isFile (pyStrip (E.copyResult i)) = true) :
    (getSelectionText E maxRetries clipboard0).1 = none := by
  unfold getSelectionText
  simp only
  exact selectionLoop_all_file_paths_none E h maxRetries 0 clipboard0

/-- Witness for `getSelectionText_rejects_file_paths`: a file-manager
selection that always lands the path `/tmp/notes.txt` in the clipboard. -/
theorem getSelectionText_rejects_file_paths_witness :
    (getSelectionText ⟨fun _ => "/tmp/notes.txt", fun s => s == "/tmp/notes.txt"⟩ 3 "abc").1 =
      none :=
  getSelectionText_rejects_file_paths _ 3 "abc" (fun _ _ => rfl)

/-! ### Debounce and mutual exclusion -/

/-- `showWindowState` and `hideWindowState` only touch visibility. -/
theorem showWindowState_lastTriggerTime (st : WMState) :
    (showWindowState st).lastTriggerTime = st.lastTriggerTime := by
  unfold showWindowState; split <;> rfl

theorem hideWindowState_lastTriggerTime (st : WMState) :
    (hideWindowState st).lastTriggerTime = st.lastTriggerTime := by
  unfold hideWindowState; split <;> rfl

/-- An accepted toggle records its own timestamp. -/
theorem toggleWindow_toggled_lastTriggerTime (cfg : WMConfig) (st : WMState) (now : ℤ)
    (hl : ¬ st.locked = true) (hd : ¬ now - st.lastTriggerTime < cfg.minTriggerInterval) :
    ((toggleWindow cfg st now).1).lastTriggerTime = now ∧
      (toggleWindow cfg st now).2 = .toggled := by
  unfold toggleWindow
  rw [if_neg hl, if_neg hd]
  constructor
  · simp only
    split
    · rw [hideWindowState_lastTriggerTime]
    · rw [showWindowState_lastTriggerTime]
  · rfl

/-- Calls inside a single debounce window toggle at most once: once some
call in the window has been accepted, `last_trigger_time` lies in the
window, so every other call in the window is rejected. -/
theorem runToggles_window_aux (cfg : WMConfig) (lo : ℤ) :
    ∀ (ts : List ℤ) (st : WMState),
      (∀ t ∈ ts, lo ≤ t ∧ t < lo + cfg.minTriggerInterval) →
      (lo ≤ st.lastTriggerTime → (runToggles cfg st ts).2 = 0) ∧
        (runToggles cfg st ts).2 ≤ 1 := by
  intro ts
  induction ts with
  | nil => intro st _; exact ⟨fun _ => rfl, by simp [runToggles]⟩
  | cons t ts ih =>
    intro st h
    have ht := h t (List.mem_cons_self t ts)
    have hts : ∀ x ∈ ts, lo ≤ x ∧ x < lo + cfg.minTriggerInterval :=
      fun x hx => h x (List.mem_cons_of_mem t hx)
    by_cases hl : st.locked = true
    · have hstep : toggleWindow cfg st t = (st, .droppedLocked) := by
        unfold toggleWindow; rw [if_pos hl]
      refine ⟨fun hlast => ?_, ?_⟩
      · simp [runToggles, hstep, (ih st hts).1 hlast]
      · simpa [runToggles, hstep] using (ih st hts).2
    · by_cases hd : t - st.lastTriggerTime < cfg.minTriggerInterval
      · have hstep : toggleWindow cfg st t = (st, .droppedDebounce) := by
          unfold toggleWindow; rw [if_neg hl, if_pos hd]
        refine ⟨fun hlast => ?_, ?_⟩
        · simp [runToggles, hstep, (ih st hts).1 hlast]
        · simpa [runToggles, hstep] using (ih st hts).2
      · have hacc := toggleWindow_toggled_lastTriggerTime cfg st t hl hd
        have hrest : (runToggles cfg ((toggleWindow cfg st t).1) ts).2 = 0 :=
          (ih _ hts).1 (by rw [hacc.1]; exact ht.1)
        refine ⟨fun hlast => ?_, ?_⟩
        · exact absurd (by omega : t - st.lastTriggerTime < cfg.minTriggerInterval) hd
        · simp [runToggles, hacc.2, hrest]

/-- C3 (amended): for every sequence of sequential `toggle_window` calls
whose monotonic timestamps all lie inside one half-open debounce window
`[lo, lo + min_interval)` — equivalently, calls that are mutually within
`min_interval` of each other — at most one call performs a show/hide
toggle.  (Measured from the previous *call*, the original claim fails:
see the counterexample.) -/
theorem toggles_in_one_window_at_most_one (cfg : WMConfig) (st : WMState) (lo : ℤ)
    (ts : List ℤ)
    (h : ∀ t ∈ ts, lo ≤ t ∧ t < lo + cfg.minTriggerInterval) :
    (runToggles cfg st ts).2 ≤ 1 :=
  (runToggles_window_aux cfg lo ts st h).2

/-- Witness for `toggles_in_one_window_at_most_one`: three fires at ticks
50, 55, 59 inside the window `[50, 60)` of a 10-tick interval. -/
theorem toggles_in_one_window_at_most_one_witness :
    (∀ t ∈ ([50, 55, 59] : List ℤ), (50 : ℤ) ≤ t ∧ t < 50 + (10 : ℤ)) ∧
      (runToggles ⟨10⟩ ⟨0, false, false, true⟩ [50, 55, 59]).2 ≤ 1 :=
  ⟨by decide, toggles_in_one_window_at_most_one ⟨10⟩ ⟨0, false, false, true⟩ 50 _ (by decide)⟩

/-- C3 counterexample: with `min_interval = 10` ticks, fires at 50, 59, 68
are each within `min_interval` of the previous call, yet two of them
toggle — the debounce window restarts at the last *accepted* trigger (50),
so the fire at 68 is accepted again. -/
theorem toggles_consecutive_gap_two_toggles :
    ((59 : ℤ) - 50 < 10 ∧ (68 : ℤ) - 59 < 10) ∧
      (runToggles ⟨10⟩ ⟨0, false, false, true⟩ [50, 59, 68]).2 = 2 := by
  decide

/-- C7: a `toggle_window` invocation arriving while a prior invocation
still holds the processing lock returns immediately: the state (including
`last_trigger_time` and `window_visible`) is exactly as before, no toggle
happens, and the fire is dropped rather than queued. -/
theorem toggleWindow_locked_dropped (cfg : WMConfig) (st : WMState) (now : ℤ)
    (h : st.locked = true) :
    toggleWindow cfg st now = (st, .droppedLocked) := by
  unfold toggleWindow; rw [if_pos h]

/-- Witness for `toggleWindow_locked_dropped`. -/
theorem toggleWindow_locked_dropped_witness :
    toggleWindow ⟨10⟩ ⟨50, false, true, true⟩ 100 = (⟨50, false, true, true⟩, .droppedLocked) :=
  toggleWindow_locked_dropped ⟨10⟩ ⟨50, false, true, true⟩ 100 rfl

/-- C10: a `toggle_window` call rejected by the debounce check leaves the
whole state — in particular `last_trigger_time` and `window_visible` —
unchanged, and therefore a rejected fire never changes the outcome of any
later fire: the debounce window stays measured from the most recent
accepted toggle. -/
theorem toggleWindow_debounce_rejected_frame (cfg : WMConfig) (st : WMState) (now : ℤ)
    (h1 : st.locked = false) (h2 : now - st.lastTriggerTime < cfg.minTriggerInterval) :
    toggleWindow cfg st now = (st, .droppedDebounce) ∧
      ∀ later : ℤ,
        toggleWindow cfg ((toggleWindow cfg st now).1) later = toggleWindow cfg st later := by
  have h : toggleWindow cfg st now = (st, .droppedDebounce) := by
    unfold toggleWindow
    rw [if_neg (by simp [h1]), if_pos h2]
  exact ⟨h, fun later => by rw [h]⟩

/-- Witness for `toggleWindow_debounce_rejected_frame`. -/
theorem toggleWindow_debounce_rejected_frame_witness :
    toggleWindow ⟨10⟩ ⟨50, false, false, true⟩ 55 = (⟨50, false, false, true⟩, .droppedDebounce) ∧
      ∀ later : ℤ,
        toggleWindow ⟨10⟩ ((toggleWindow ⟨10⟩ ⟨50, false, false, true⟩ 55).1) later =
          toggleWindow ⟨10⟩ ⟨50, false, false, true⟩ later :=
  toggleWindow_debounce_rejected_frame ⟨10⟩ ⟨50, false, false, true⟩ 55 rfl (by decide)

/-! ### Hotkey format round-trip -/

/-- C4: evaluation of the round-trip at the canonical storage string
`"ctrl+shift+a"`.  The display conversion produces `"Ctrl + Shift + A"` as
documented, but `format_hotkey_for_storage` joins the lowercased parts
with the separator `"+ "` (plus-space), so the round-trip yields
`"ctrl+ shift+ a"`, not the original string — contradicting the
function's own docstring, which promises `"ctrl+shift+a"` for exactly
this input. -/
theorem hotkey_roundtrip_eval :
    format_hotkey_for_display (some "ctrl+shift+a") = "Ctrl + Shift + A" ∧
      format_hotkey_for_storage (format_hotkey_for_display (some "ctrl+shift+a")) =
        "ctrl+ shift+ a" ∧
      format_hotkey_for_storage (format_hotkey_for_display (some "ctrl+shift+a")) ≠
        "ctrl+shift+a" := by
  decide

/-! ### Modifier-only capture results -/

/-- Sessions in which every key-down was a modifier never set a main-key
candidate. -/
theorem foldl_onKeyEvent_mainKey_none :
    ∀ (events : List KeyEvent) (st : CaptureState),
      (∀ e ∈ events, e.etype = .down → isModifier (pyLower e.name) = true) →
      st.mainKey = none →
      (events.foldl onKeyEvent st).mainKey = none := by
  intro events
  induction events with
  | nil => intro st _ h0; simpa using h0
  | cons e es ih =>
    intro st h h0
    have he := h e (List.mem_cons_self e es)
    have hes : ∀ x ∈ es, x.etype = .down → isModifier (pyLower x.name) = true :=
      fun x hx => h x (List.mem_cons_of_mem e hx)
    have hstep : (onKeyEvent st e).mainKey = none := by
      unfold onKeyEvent
      cases hety : e.etype with
      | down => simp [he hety, h0]
      | up =>
        by_cases hm : isModifier (pyLower e.name) = true
        · simp [hm, h0]
        · simp [hm, h0]
    exact ih (onKeyEvent st e) hes hstep

/-- C6 (amended): if during the capture session no non-modifier key was
pressed and no modifier is still held when the session stops, then
`stop_capture` returns the empty string — not a modifiers-only
combination.  (While a modifier is still held at stop time, the
modifiers-only string *is* returned: see the counterexample.) -/
theorem stopCapture_no_main_key_released_empty (events : List KeyEvent)
    (h1 : ∀ e ∈ events, e.etype = .down → isModifier (pyLower e.name) = true)
    (h2 : (runCapture events).modifiers = []) :
    stopCapture (runCapture events) = "" := by
  have hmain : (runCapture events).mainKey = none :=
    foldl_onKeyEvent_mainKey_none events initCaptureState h1 rfl
  unfold stopCapture getCurrentHotkey
  rw [if_pos ⟨h2, hmain⟩]

/-- Witness for `stopCapture_no_main_key_released_empty`: press and
release Ctrl, then stop. -/
theorem stopCapture_no_main_key_released_empty_witness :
    stopCapture (runCapture [⟨"ctrl", 29, .down⟩, ⟨"ctrl", 29, .up⟩]) = "" :=
  stopCapture_no_main_key_released_empty _ (by decide) (by decide)

/-- C6 counterexample: a session consisting of a single Ctrl key-down
(no non-modifier key ever pressed) whose `stop_capture` result is the
non-empty modifiers-only combination `"ctrl"` — `get_current_hotkey`
emits the held modifiers even without a main key. -/
theorem stopCapture_modifiers_only_emitted :
    stopCapture (runCapture [⟨"ctrl", 29, .down⟩]) = "ctrl" ∧
      isModifiersOnly (stopCapture (runCapture [⟨"ctrl", 29, .down⟩])) = true := by
  decide

/-! ### Event bus delivery isolation -/

/-- C9: one emission delivers the event to every subscribed listener in
subscription order; each listener's outcome (normal return, or exception
caught and logged) is recorded independently of every other listener's,
so a raising callback never prevents delivery to the listeners after it.
`emitBus` is a total function into delivery records: a listener failure
can never surface as an exception of `emit` itself. -/
theorem emit_delivers_to_every_listener {δ : Type}
    (listeners : List (String × List (Callback δ))) (eventType : String) (data : Option δ) :
    (emitBus listeners eventType data).length = (subscribersOf listeners eventType).length ∧
      ∀ (i : Nat) (cb : Callback δ),
        (subscribersOf listeners eventType).get? i = some cb →
        (emitBus listeners eventType data).get? i = some (runCallback cb data) := by
  refine ⟨List.length_map _ _, fun i cb h => ?_⟩
  have h2 : (subscribersOf listeners eventType)[i]? = some cb := by
    rw [← List.get?_eq_getElem?]; exact h
  simp [emitBus, List.get?_eq_getElem?, List.getElem?_map, h2]

/-- Witness for `emit_delivers_to_every_listener`: the first listener
raises, the second still receives the event. -/
theorem emit_delivers_to_every_listener_witness :
    emitBus (δ := Nat) [("evt", [fun _ => Except.error "boom", fun _ => Except.ok ()])]
        "evt" (some 0) = [false, true] ∧
      (emitBus (δ := Nat) [("evt", [fun _ => Except.error "boom", fun _ => Except.ok ()])]
          "evt" (some 0)).get? 1 =
        some (runCallback (δ := Nat) (fun _ => Except.ok ()) (some 0)) :=
  ⟨rfl,
    (emit_delivers_to_every_listener
      [("evt", [fun _ => Except.error "boom", fun _ => Except.ok ()])] "evt" (some 0)).2 1 _ rfl⟩

/-! ### Prompt-bar source priority -/

/-- Filtering on a source-based predicate passes unchanged through the
`_reorder_attachments` step. -/
theorem filter_source_reorder (p : Attachment → Bool)
    (hp : ∀ a, p a = true → isSourceAttachment a = true) (l : List Attachment) :
    (reorderAttachments l).filter p = l.filter p := by
  unfold reorderAttachments
  rw [List.filter_append, List.filter_filter, List.filter_filter]
  have h1 : (l.filter fun a => p a && isSourceAttachment a) = l.filter p := by
    apply List.filter_congr
    intro a _
    cases hpa : p a
    · simp
    · simp [hp a hpa]
  have h2 : (l.filter fun a => p a && !(isSourceAttachment a)) = [] := by
    rw [List.filter_eq_nil]
    intro a _
    cases hpa : p a
    · simp [hpa]
    · simp [hpa, hp a hpa]
  rw [h1, h2, List.append_nil]

/-- C5 (amended): for every prior attachment list respecting the
reserved-id discipline (an attachment carries the id `selection_text`
exactly when its source is `selection`) and every freshly detected
`InputState` with non-empty `selection_text`, regardless of clipboard
content, the reconciled list contains exactly one selection-sourced
attachment — but the clipboard-sourced attachments are exactly the ones
already present: `_refresh_sources` deactivates the clipboard indicator
without removing clipboard attachments left over from an earlier capture
cycle. -/
theorem refreshSources_selection_priority (st : InputState) (prior : List Attachment)
    (s : String) (hsel : st.selection_text = some s) (hne : s ≠ "")
    (hres : ∀ a ∈ prior, a.id = ID_SELECTION_TEXT ↔ a.source = some "selection") :
    countSource "selection" (refreshSources st prior) = 1 ∧
      (refreshSources st prior).filter (fun a => a.source == some "clipboard") =
        prior.filter (fun a => a.source == some "clipboard") := by
  have hpSel : ∀ a : Attachment, (a.source == some "selection") = true →
      isSourceAttachment a = true := by
    intro a ha; simp [isSourceAttachment, ha]
  have hpClip : ∀ a : Attachment, (a.source == some "clipboard") = true →
      isSourceAttachment a = true := by
    intro a ha; simp [isSourceAttachment, ha]
  have hhas : st.has_selection = true := by
    simp [InputState.has_selection, pyTruthyOpt, pyTruthy, hsel, hne]
  have hform : refreshSources st prior =
      reorderAttachments (removeSelectionAttachment prior ++
        [{ id := ID_SELECTION_TEXT, type := "text", content := .text s,
           name := "Selection", source := some "selection" }]) := by
    unfold refreshSources addSelectionAttachment
    rw [hsel]
    simp [hhas, hne]
  constructor
  · rw [hform]
    unfold countSource
    rw [filter_source_reorder _ hpSel, List.filter_append]
    have hzero : (removeSelectionAttachment prior).filter
        (fun a => a.source == some "selection") = [] := by
      unfold removeSelectionAttachment
      rw [List.filter_filter, List.filter_eq_nil]
      intro a ha
      simp only [Bool.and_eq_true, Bool.not_eq_true', beq_eq_false_iff_ne, ne_eq,
        beq_iff_eq, not_and]
      intro hsrc hid
      exact hid ((hres a ha).mpr hsrc)
    rw [hzero]
    simp
  · rw [hform]
    rw [filter_source_reorder _ hpClip, List.filter_append]
    have h1 : (removeSelectionAttachment prior).filter
        (fun a => a.source == some "clipboard") =
        prior.filter (fun a => a.source == some "clipboard") := by
      unfold removeSelectionAttachment
      rw [List.filter_filter]
      apply List.filter_congr
      intro a ha
      cases hc : (a.source == some "clipboard")
      · simp
      · have hsrc : a.source = some "clipboard" := by simpa using hc
        have hid : ¬ a.id = ID_SELECTION_TEXT := by
          intro hidEq
          have hss := (hres a ha).mp hidEq
          rw [hsrc] at hss
          simp at hss
        simp [hid]
    rw [h1]
    simp

/-- Witness for `refreshSources_selection_priority`: the spec's own
instance `InputState(selection_text="X", clipboard_text="Y")` against an
empty prior list. -/
theorem refreshSources_selection_priority_witness :
    countSource "selection" (refreshSources ⟨some "Y", false, some "X"⟩ []) = 1 ∧
      (refreshSources ⟨some "Y", false, some "X"⟩ []).filter
          (fun a => a.source == some "clipboard") =
        ([] : List Attachment).filter (fun a => a.source == some "clipboard") :=
  refreshSources_selection_priority ⟨some "Y", false, some "X"⟩ [] "X" rfl (by decide)
    (fun a ha => absurd ha (List.not_mem_nil a))

/-- C5 counterexample: a clipboard-sourced attachment surviving from an
earlier capture cycle is *not* removed when a fresh detection finds a
selection: the reconciled list holds one selection attachment and still
one clipboard attachment, where the claim demands zero. -/
theorem refreshSources_keeps_stale_clipboard :
    countSource "clipboard"
        (refreshSources ⟨some "Y", false, some "X"⟩
          [{ id := "clipboard_text", type := "text", content := .text "Y",
             name := "Clipboard", source := some "clipboard" }]) = 1 ∧
      countSource "clipboard"
          (refreshSources ⟨some "Y", false, some "X"⟩
            [{ id := "clipboard_text", type := "text", content := .text "Y",
               name := "Clipboard", source := some "clipboard" }]) ≠ 0 ∧
      countSource "selection"
          (refreshSources ⟨some "Y", false, some "X"⟩
            [{ id := "clipboard_text", type := "text", content := .text "Y",
               name := "Clipboard", source := some "clipboard" }]) = 1 := by
  decide

/-! ### Window show/hide event ordering -/

/-- In `A ++ B` where every element of `A` satisfies `p` and no element of
`B` does, any index holding a `p`-element is strictly before any index
holding a non-`p`-element. -/
theorem append_mem_index_lt {α : Type} {A B : List α} (p : α → Prop)
    (hA : ∀ a ∈ A, p a) (hB : ∀ b ∈ B, ¬ p b)
    {i j : Nat} {x y : α}
    (hx : (A ++ B).get? i = some x) (hpx : p x)
    (hy : (A ++ B).get? j = some y) (hpy : ¬ p y) : i < j := by
  have hi : i < A.length := by
    by_contra hcon
    push_neg at hcon
    rw [List.get?_append_right hcon] at hx
    exact hB x (List.get?_mem hx) hpx
  have hj : A.length ≤ j := by
    by_contra hcon
    push_neg at hcon
    rw [List.get?_append hcon] at hy
    exact hpy (hA y (List.get?_mem hy))
  omega

/-- C2: in `show_window`'s trace every pre-show subscriber run lies
strictly before the window is made visible and before it is brought to
front; when a page is attached the pre-show notification does reach all
its subscribers and the window does become visible; `show_window` itself
runs no `WINDOW_SHOWN` subscriber at all (so, in particular, none before
the visibility change), and the systray path — the one `WINDOW_SHOWN`
emission in the repository — runs them only after setting the window
visible; `hide_window` runs the hidden-hook subscribers only after
setting the window invisible. -/
theorem window_event_ordering (w : WindowWiring) :
    (∀ (i j k : Nat) (y : WMAction),
        (showWindowTrace w).get? i = some (.preShowRun k) →
        (showWindowTrace w).get? j = some y →
        (y = .setVisible true ∨ y = .toFront) → i < j) ∧
      (w.hasPage = true →
        (∀ k < w.preShowSubs, WMAction.preShowRun k ∈ showWindowTrace w) ∧
          WMAction.setVisible true ∈ showWindowTrace w) ∧
      (∀ (i k : Nat), (showWindowTrace w).get? i ≠ some (.shownRun k)) ∧
      (∀ (i j k : Nat),
        (systrayShowTrace w).get? i = some (.shownRun k) →
        (systrayShowTrace w).get? j = some (.setVisible true) → j < i) ∧
      (∀ (i j k : Nat),
        (hideWindowTrace w).get? i = some (.hiddenRun k) →
        (hideWindowTrace w).get? j = some (.setVisible false) → j < i) := by
  by_cases hp : w.hasPage = true
  · have hshow : showWindowTrace w =
        (List.range w.preShowSubs).map WMAction.preShowRun ++
          [.setVisible true, .toFront, .pageUpdate, .setVisibleFlag true] := by
      simp [showWindowTrace, hp]
    have hsys : systrayShowTrace w =
        [WMAction.setVisible true] ++ (List.range w.shownSubs).map WMAction.shownRun := by
      simp [systrayShowTrace, hp]
    have hhide : hideWindowTrace w =
        [WMAction.setVisible false, .pageUpdate, .setVisibleFlag false] ++
          (List.range w.hiddenSubs).map WMAction.hiddenRun := by
      simp [hideWindowTrace, hp]
    refine ⟨?_, ?_, ?_, ?_, ?_⟩
    · intro i j k y hx hy hcase
      rw [hshow] at hx hy
      refine append_mem_index_lt (fun a => a.isPreShowRun = true) ?_ ?_ hx rfl hy ?_
      · intro a ha
        obtain ⟨k2, _, rfl⟩ := List.mem_map.mp ha
        rfl
      · intro b hb
        simp only [List.mem_cons, List.mem_singleton, List.not_mem_nil, or_false] at hb
        rcases hb with rfl | rfl | rfl | rfl <;> simp [WMAction.isPreShowRun]
      · rcases hcase with rfl | rfl <;> simp [WMAction.isPreShowRun]
    · intro _
      constructor
      · intro k hk
        rw [hshow]
        exact List.mem_append_left _ (List.mem_map_of_mem _ (List.mem_range.mpr hk))
      · rw [hshow]
        exact List.mem_append_right _ (by simp)
    · intro i k h
      have hm := List.get?_mem h
      rw [hshow] at hm
      rcases List.mem_append.mp hm with hA2 | hB2
      · obtain ⟨k2, _, heq⟩ := List.mem_map.mp hA2
        exact absurd heq (by simp)
      · simp at hB2
    · intro i j k hx hy
      rw [hsys] at hx hy
      refine append_mem_index_lt (fun a => a.isShownRun = false) ?_ ?_ hy rfl hx ?_
      · intro a ha
        simp only [List.mem_singleton] at ha
        subst ha; rfl
      · intro b hb
        obtain ⟨k2, _, rfl⟩ := List.mem_map.mp hb
        simp [WMAction.isShownRun]
      · simp [WMAction.isShownRun]
    · intro i j k hx hy
      rw [hhide] at hx hy
      refine append_mem_index_lt (fun a => a.isHiddenRun = false) ?_ ?_ hy rfl hx ?_
      · intro a ha
        simp only [List.mem_cons, List.mem_singleton, List.not_mem_nil, or_false] at ha
        rcases ha with rfl | rfl | rfl <;> rfl
      · intro b hb
        obtain ⟨k2, _, rfl⟩ := List.mem_map.mp hb
        simp [WMAction.isHiddenRun]
      · simp [WMAction.isHiddenRun]
  · have hshow : showWindowTrace w = [] := by simp [showWindowTrace, hp]
    have hsys : systrayShowTrace w = [] := by simp [systrayShowTrace, hp]
    have hhide : hideWindowTrace w = [] := by simp [hideWindowTrace, hp]
    refine ⟨?_, ?_, ?_, ?_, ?_⟩
    · intro i j k y hx _ _; rw [hshow] at hx; simp at hx
    · intro hcon; exact absurd hcon hp
    · intro i k h; rw [hshow] at h; simp at h
    · intro i j k hx _; rw [hsys] at hx; simp at hx
    · intro i j k hx _; rw [hhide] at hx; simp at hx

/-- Witness for `window_event_ordering`: one subscriber each; the
pre-show run sits at index 0 of the show trace, the visibility change at
index 1. -/
theorem window_event_ordering_witness :
    (showWindowTrace ⟨true, 1, 1, 1⟩).get? 0 = some (.preShowRun 0) ∧
      (showWindowTrace ⟨true, 1, 1, 1⟩).get? 1 = some (.setVisible true) ∧
      (0 : Nat) < 1 :=
  ⟨by decide, by decide,
    (window_event_ordering ⟨true, 1, 1, 1⟩).1 0 1 0 (.setVisible true) (by decide) (by decide)
      (Or.inl rfl)⟩

end WritingAssistant
